import Mathlib

set_option maxRecDepth 20000

/-!
# Verification of the `dads` ingestion/enrichment pipeline (LF-Engineering/dadsjira)

A shallow embedding, in Lean 4, of the core pipeline code of the repository:
the content-addressed identifier generators (`uuid.go`, `ds.go`), the HTTP
request status handling (`Request` in `ds.go`), the bulk writer with its
per-document fallback (`SendToElastic`), the checkpoint resolution of the
raw and enrichment passes (`FetchRaw` / `Enrich`), the scroll pagination
loop (`ForEachRawItem`), and the identity/affiliation resolution chain
(`EmptyAffsItem`, `AffsIdentityIDs`, `IdenityAffsData` in `mbox.go`,
`AffsItems` in the Jira connector).

Modelling conventions:
* Go strings are Lean `String`s; byte-level hashing uses UTF-8 bytes,
  machine 32-bit words are `Nat` with explicit `% 2^32`.
* `Fatalf` / `FatalOnError` (defined outside the provided sources) abort the
  run; fallible modelled code returns `Except String _` with `.error` for
  the fatal path.  Per the specification the scroll cursor is released on
  every exit path, so run termination is modelled as a panic-style exit
  that still executes deferred calls.
* The Unicode NFKD step of the argument normalization precedes a filter
  that removes every rune outside printable ASCII (`r < 32 || r >= 127`).
  NFKD is the identity on the code points kept by that filter, so the model
  applies the filter directly to the code points of the argument
  (faithful for ASCII text; NFKD decomposition tables are out of scope).
* Remote services (the search index, the identity store) are oracles passed
  as explicit function arguments; caches are explicit association lists.
-/

/-! ## Shared constants (values fixed by the spec's glossary and §8) -/

/-- Modelled from the spec: the null-sentinel string `Nil` ("<nil>"), a
constant of the repository defined outside the provided sources
(spec §3 "Identity Key", §8 `identify("x","<nil>","y")`). -/
def NilS : String := "<nil>"

/-- Modelled from the spec: the canonical placeholder `None` substituted for
the null sentinel by the tolerant identifier (spec §4.1). -/
def NoneS : String := "None"

/-- Modelled from the spec: the `Unknown` sentinel for unresolved
affiliation data (spec §4.2, §8). -/
def Unknown : String := "Unknown"

/-! ## SHA-1 (Go `crypto/sha1`), over lists of bytes as `Nat` -/

/-- 2^32, the word size of the SHA-1 state. -/
def w32 : Nat := 4294967296

/-- Rotate a 32-bit word (a `Nat < 2^32`) left by `n` bits. -/
def rotl (n x : Nat) : Nat := ((x <<< n) ||| (x >>> (32 - n))) % w32

/-- Big-endian byte expansion of `v` into `k` bytes. -/
def bytesBE : Nat → Nat → List Nat
  | 0, _ => []
  | k + 1, v => bytesBE k (v / 256) ++ [v % 256]

/-- SHA-1 message padding: append `0x80`, zero bytes to 56 mod 64, and the
big-endian 64-bit bit length. -/
def sha1pad (ms : List Nat) : List Nat :=
  let l := ms.length
  ms ++ [128] ++ List.replicate ((64 + 55 - l % 64) % 64) 0 ++ bytesBE 8 (l * 8)

/-- Group a list of bytes into big-endian 32-bit words. -/
def toWords : List Nat → List Nat
  | a :: b :: c :: d :: rest => (((a * 256 + b) * 256 + c) * 256 + d) :: toWords rest
  | _ => []

/-- Message-schedule extension: push words until 80 are present. -/
def sha1extend : Nat → Array Nat → Array Nat
  | 0, ws => ws
  | n + 1, ws =>
    let i := ws.size
    let w := rotl 1 ((ws.getD (i - 3) 0 ^^^ ws.getD (i - 8) 0) ^^^
                     (ws.getD (i - 14) 0 ^^^ ws.getD (i - 16) 0))
    sha1extend n (ws.push w)

/-- One SHA-1 compression round (round index `i`, state `(a,b,c,d,e)`). -/
def sha1round (ws : Array Nat) (i : Nat) :
    Nat × Nat × Nat × Nat × Nat → Nat × Nat × Nat × Nat × Nat :=
  fun (a, b, c, d, e) =>
    let fk : Nat × Nat :=
      if i < 20 then ((b &&& c) ||| ((b ^^^ 4294967295) &&& d), 1518500249)
      else if i < 40 then ((b ^^^ c) ^^^ d, 1859775393)
      else if i < 60 then ((b &&& c) ||| ((b &&& d) ||| (c &&& d)), 2400959708)
      else ((b ^^^ c) ^^^ d, 3395469782)
    let temp := (rotl 5 a + fk.1 + e + fk.2 + ws.getD i 0) % w32
    (temp, a, rotl 30 b, c, d)

/-- Run rounds `80 - fuel, …, 79`. -/
def sha1rounds (ws : Array Nat) : Nat → Nat × Nat × Nat × Nat × Nat → Nat × Nat × Nat × Nat × Nat
  | 0, st => st
  | n + 1, st => sha1rounds ws n (sha1round ws (80 - (n + 1)) st)

/-- Process one 64-byte chunk into the running state. -/
def sha1chunk (chunk : List Nat) (h : Nat × Nat × Nat × Nat × Nat) :
    Nat × Nat × Nat × Nat × Nat :=
  let ws := sha1extend 64 (Array.mk (toWords chunk))
  let (h0, h1, h2, h3, h4) := h
  let (a, b, c, d, e) := sha1rounds ws 80 (h0, h1, h2, h3, h4)
  ((h0 + a) % w32, (h1 + b) % w32, (h2 + c) % w32, (h3 + d) % w32, (h4 + e) % w32)

/-- Process `n` chunks of the padded message. -/
def sha1chunks : Nat → List Nat → Nat × Nat × Nat × Nat × Nat → Nat × Nat × Nat × Nat × Nat
  | 0, _, h => h
  | n + 1, bs, h => sha1chunks n (bs.drop 64) (sha1chunk (bs.take 64) h)

/-- SHA-1 digest of a byte list, as 20 bytes. -/
def sha1bytes (ms : List Nat) : List Nat :=
  let padded := sha1pad ms
  let (h0, h1, h2, h3, h4) :=
    sha1chunks (padded.length / 64) padded
      (1732584193, 4023233417, 2562383102, 271733878, 3285377520)
  bytesBE 4 h0 ++ bytesBE 4 h1 ++ bytesBE 4 h2 ++ bytesBE 4 h3 ++ bytesBE 4 h4

/-- A nibble as a lowercase hex character. -/
def hexDigit (n : Nat) : Char := if n < 10 then Char.ofNat (48 + n) else Char.ofNat (87 + n)

/-- A byte as two hex characters. -/
def hexByte (b : Nat) : List Char := [hexDigit (b / 16 % 16), hexDigit (b % 16)]

/-- Hex-encode a byte list (Go `hex.EncodeToString`). -/
def hexStr (bs : List Nat) : String := ⟨(bs.map hexByte).flatten⟩

/-- UTF-8 encoding of one code point. -/
def utf8Bytes (c : Char) : List Nat :=
  let v := c.toNat
  if v < 128 then [v]
  else if v < 2048 then [192 + v / 64, 128 + v % 64]
  else if v < 65536 then [224 + v / 4096, 128 + v / 64 % 64, 128 + v % 64]
  else [240 + v / 262144, 128 + v / 4096 % 64, 128 + v / 64 % 64, 128 + v % 64]

/-- UTF-8 bytes of a string (Go `[]byte(s)`). -/
def strBytes (s : String) : List Nat := (s.data.map utf8Bytes).flatten

/-- Hex-encoded SHA-1 of a string's UTF-8 bytes: the composition
`hex.EncodeToString(sha1.Sum(s))` used by both identifier generators. -/
def sha1hex (s : String) : String := hexStr (sha1bytes (strBytes s))

/-! ## Argument normalization and the identifier generators
(`uuid.go` lines 13-117; the uncached flavors also appear in `ds.go` 71-144) -/

/-- Keep a code point iff it is printable ASCII: the complement of the Go
`isOk` predicate `r < 32 || r >= 127` removed by `transform.RemoveFunc`. -/
def keepRune (c : Char) : Bool := 32 ≤ c.toNat && c.toNat < 127

/-- `stripF` of both generators: NFKD normalization followed by removal of
every rune with `r < 32 || r >= 127`.  NFKD is the identity on the
code points the filter keeps, so the model filters the code points directly. -/
def stripF (s : String) : String := ⟨s.data.filter keepRune⟩

/-- ASCII lower-casing of one code point (Go `strings.ToLower`; the strings
this model lowers have been stripped to printable ASCII first, where the Go
Unicode case mapping agrees with the ASCII one). -/
def toLowerCh (c : Char) : Char :=
  if 65 ≤ c.toNat && c.toNat ≤ 90 then Char.ofNat (c.toNat + 32) else c

/-- ASCII lower-casing of a string. -/
def strLower (s : String) : String := ⟨s.data.map toLowerCh⟩

/-- The accumulation step of both generators' joining loop:
`if arg != "" { arg += ":" }; arg += piece`. -/
def joinStep (arg piece : String) : String :=
  if arg = "" then piece else arg ++ ":" ++ piece

/-- Go `strings.Join(args, ":")` — the raw-argument cache key. -/
def colonKey (args : List String) : String := String.intercalate ":" args

/-- Spec-side join: the normalized arguments "joined with `:`"
(one separator per gap, as `strings.Join` would do). -/
def colonJoin : List String → String
  | [] => ""
  | [x] => x
  | x :: xs => x ++ ":" ++ colonJoin xs

/-- `UUIDNonEmpty` (`uuid.go` 24-66, cache aside): iterate the arguments,
fail fatally (`Except.error`) on an empty argument, otherwise accumulate
`stripF` of the argument behind a `:` separator when the accumulator is
non-empty, and hash the accumulated string. -/
def uuidNonEmptyLoop : List String → String → Except String String
  | [], arg => .ok arg
  | a :: rest, arg =>
    if a = "" then .error "UUIDNonEmpty - empty argument(s) not allowed"
    else uuidNonEmptyLoop rest (joinStep arg (stripF a))

/-- The uncached `UUIDNonEmpty` computation (`ds.go` 72-104 and the cache-miss
path of `uuid.go` 24-66). -/
def UUIDNonEmptyPure (args : List String) : Except String String :=
  (uuidNonEmptyLoop args "").map sha1hex

/-- One entry step of `UUIDAffs`' loop (`uuid.go` 94-105): an empty first
argument is fatal, the `Nil` sentinel is replaced by `None` before
stripping, and pieces accumulate behind `:` separators. -/
def uuidAffsLoop : List String → Nat → String → Except String String
  | [], _, arg => .ok arg
  | a :: rest, i, arg =>
    if i = 0 && a = "" then .error "UUIDAffs - empty first argument not allowed"
    else
      let a' := if a = NilS then NoneS else a
      uuidAffsLoop rest (i + 1) (joinStep arg (stripF a'))

/-- The uncached `UUIDAffs` computation (`ds.go` 109-144 and the cache-miss
path of `uuid.go` 72-117): the accumulated string is lower-cased before
hashing. -/
def UUIDAffsPure (args : List String) : Except String String :=
  (uuidAffsLoop args 0 "").map (fun arg => sha1hex (strLower arg))

/-- A process-lifetime identifier cache (`uuidsCacheNonEmpty` /
`uuidsCacheAffs`): an association list keyed by the raw colon-joined
arguments. -/
def UuidCache := List (String × String)

/-- Cache lookup (Go map read). -/
def cacheGet (c : UuidCache) (k : String) : Option String :=
  (List.lookup k c : Option String)

/-- The cached `UUIDNonEmpty` (`uuid.go` 24-66): look the raw key up first
and return the cached hash on a hit — before any normalization or
empty-argument check; on a miss run the strict computation and store the
result under the raw key. -/
def UUIDNonEmptyCached (c : UuidCache) (args : List String) :
    Except String (String × UuidCache) :=
  match cacheGet c (colonKey args) with
  | some h => .ok (h, c)
  | none => (UUIDNonEmptyPure args).map (fun h => (h, (colonKey args, h) :: c))

/-- The cached `UUIDAffs` (`uuid.go` 72-117), same cache discipline with its
own namespace. -/
def UUIDAffsCached (c : UuidCache) (args : List String) :
    Except String (String × UuidCache) :=
  match cacheGet c (colonKey args) with
  | some h => .ok (h, c)
  | none => (UUIDAffsPure args).map (fun h => (h, (colonKey args, h) :: c))

/-! ## Structural lemmas about the joining loop and normalization -/

/-- Does some argument equal the empty string? -/
def anyEmpty : List String → Bool
  | [] => false
  | a :: rest => a == "" || anyEmpty rest

/-- The binary relation of a "case-only variation that respects the null
sentinel": equal after lower-casing, and `<nil>` on one side iff on the other. -/
def caseAligned (a b : String) : Prop := strLower a = strLower b ∧ (a = NilS ↔ b = NilS)

/-- The hash value the (amended) strict contract promises: SHA-1 of the
normalized arguments joined with `:`, with normalized-empty arguments
before the first non-empty one contributing no separator. -/
def strictSpecHash (args : List String) : String :=
  sha1hex (colonJoin ((args.map stripF).dropWhile (fun s => s = "")))

/-! ## Checkpoint resolution (`FetchRaw` ds.go 951-1015, `Enrich` ds.go 1018-1097)

Dates are modelled as integers on the time line (`time.Time.After` is the
strict order); offsets are modelled as rationals (`float64` values compared
with `>=`/`>`; ElasticSearch aggregation values carry no NaN here). -/

/-- The raw pass's start-date resolution, ds.go 969-983: take the operator
date if set, otherwise detect the maximum date in the raw index; record
whether the value was auto-detected.  Returns (effective `ctx.DateFrom`,
`ctx.DateFromDetected`). -/
def fetchRawResolveDate (opDate rawLast : Option Int) : Option Int × Bool :=
  match opDate with
  | some d => (some d, false)
  | none =>
    match rawLast with
    | some d => (some d, true)
    | none => (none, false)

/-- The raw pass's start-offset resolution, ds.go 984-1003: operator offset
if `>= 0`, else the detected raw-index offset if `>= 0`; `ctx.OffsetFrom`
is updated only when one of the two is available. -/
def fetchRawResolveOffset (opOffset rawLast : ℚ) : ℚ × Bool :=
  if opOffset ≥ 0 then (opOffset, false)
  else if rawLast ≥ 0 then (rawLast, true)
  else (opOffset, false)

/-- The enrichment pass's start-date resolution, ds.go 1038-1054.
`dateFrom` is `ctx.DateFrom` as left by the raw pass, `detected` is
`ctx.DateFromDetected`, `richLast` is `GetLastUpdate` on the rich index.
The outer `Option` is `none` exactly when the Go code would dereference a
nil `ctx.DateFrom` (only reachable if `detected` holds without a date). -/
def enrichResolveDate (detected : Bool) (dateFrom richLast : Option Int) :
    Option (Option Int) :=
  if detected then
    match richLast with
    | none => some none
    | some d2 =>
      match dateFrom with
      | none => none
      | some d1 => some (some (if d1 < d2 then d1 else d2))
  else some dateFrom

/-- The enrichment pass's start-offset resolution, ds.go 1055-1078: the
final `ctx.OffsetFrom` (with `-1` for "no start offset"). -/
def enrichResolveOffset (detected : Bool) (offsetFrom richLast : ℚ) : ℚ :=
  if detected then
    if richLast ≥ 0 then
      if richLast > offsetFrom then offsetFrom else richLast
    else -1
  else
    if offsetFrom ≥ 0 then offsetFrom else -1

/-! ## The transport layer (`Request`, ds.go 209-290) -/

/-- Is `status` inside one of the inclusive ranges? (the Go loops
`for r := range statuses { if status >= r[0] && status <= r[1] ... }`). -/
def inRanges (status : Nat) (rs : List (Nat × Nat)) : Bool :=
  rs.any (fun r => r.1 ≤ status && status ≤ r.2)

/-- What `Request` hands back as `result`. -/
inductive ReqResult where
  | jsonVal
  | rawBody
  | noResult
  deriving DecidableEq, Repr

/-- The post-response logic of `Request` (ds.go 250-289) as a function of
the HTTP status, whether the body would decode as JSON, and the three
status-range sets.  Returns the result kind and whether `err` is non-nil.
Mirrors the control flow: a JSON-range status attempts decoding (an early
error return on failure); a non-JSON-range status yields the raw bytes;
then the error-range check sets `err`, and a non-empty OK-range set with a
status outside it sets `err` as well. -/
def requestModel (status : Nat) (decodeOk : Bool)
    (jsonS errS okS : List (Nat × Nat)) : ReqResult × Bool :=
  if inRanges status jsonS then
    if decodeOk then
      (ReqResult.jsonVal,
        inRanges status errS || (!okS.isEmpty && !inRanges status okS))
    else (ReqResult.noResult, true)
  else
    (ReqResult.rawBody,
      inRanges status errS || (!okS.isEmpty && !inRanges status okS))

/-! ## Bulk writer (`SendToElastic`, ds.go 293-371)

An item is modelled by its identifier field: `some uuid` when
`item[key].(string)` succeeds, `none` when the key is missing or not a
string.  The remote side is an oracle `put : Nat → Nat` giving the HTTP
status of the i-th individual upsert, plus one Bool for the bulk request's
failure. -/

/-- Error of one fallback PUT (ds.go 356-365): error statuses `400-599`,
OK statuses `200-201`, no JSON statuses — via the `Request` model. -/
def docPutErr (status : Nat) : Bool :=
  (requestModel status true [] [(400, 599)] [(200, 201)]).2

/-- The payload-build loop (ds.go 310-324): the first item whose `key`
field is missing aborts the batch with an error, before any request. -/
def buildBulkUUIDs : List (Option String) → Except String (List String)
  | [] => .ok []
  | none :: _ => .error "missing key property"
  | some u :: rest => (buildBulkUUIDs rest).map (fun us => u :: us)

/-- The per-document fallback loop (ds.go 353-366): one PUT per item, in
order; `err` is overwritten by every iteration, so the value after the loop
is the outcome of the last request (`none` = nil, `some s` = the failing
status).  Returns the trace of attempted document ids and the final `err`. -/
def fallbackRun (put : Nat → Nat) :
    Option Nat → Nat → List (Option String) → List String × Option Nat
  | prevErr, _, [] => ([], prevErr)
  | _, i, it :: rest =>
    let e := if docPutErr (put i) then some (put i) else none
    let tr := fallbackRun put e (i + 1) rest
    (it.getD "" :: tr.1, tr.2)

/-- The outcome of `SendToElastic`. -/
inductive SendResult where
  | missingKey
  | bulkOk
  | fallback (puts : List String) (finalErr : Option Nat)
  deriving DecidableEq, Repr

/-- `SendToElastic` (ds.go 293-371): build the bulk payload (fatal on a
missing id field), send it as one bulk request; on success return nil; on
any request-level failure reset `err` and fall back to one individual
upsert per item. -/
def SendToElasticModel (bulkErr : Bool) (put : Nat → Nat)
    (items : List (Option String)) : SendResult :=
  match buildBulkUUIDs items with
  | .error _ => .missingKey
  | .ok _ =>
    if bulkErr then .fallback (fallbackRun put none 0 items).1 (fallbackRun put none 0 items).2
    else .bulkOk

/-! ## Pagination engine (`ForEachRawItem`, ds.go 691-894)

The search service is an oracle: a list of successive responses, one per
`Request` issued by the loop.  The connector-supplied batch transform
(`ufunct`) and item extraction (`uitems`) are function arguments, as in the
source.  The model follows the sequential (`thrN = 1`) execution; the
deferred scroll release (ds.go 708-727) runs on every function exit — per
spec §4.5/§7 the out-of-src `Fatalf`/`FatalOnError` terminate like an
uncaught panic, running deferred calls. -/

/-- A response as `Request` returns it to `ForEachRawItem` (JSON statuses
`{200}`, OK statuses `{200, 500}`):
* `ok200`: decoded JSON map; `_scroll_id` and `hits.hits` each possibly
  missing;
* `bytes500`: status 500, the raw body bytes, with or without the
  too-many-scrolls marker;
* `badResp`: any other status, a transport failure, or an undecodable 200
  body — `Request` returns an error and `FatalOnError` fires. -/
inductive EsResp where
  | ok200 (scrollId : Option String) (hits : Option (List Nat))
  | bytes500 (marker : Bool)
  | badResp
  deriving DecidableEq, Repr

/-- How one pass of the pagination loop ends. -/
inductive LoopExit where
  | finished
  | errored
  | panicked
  | fatal
  | outOfResponses
  deriving DecidableEq, Repr

/-- The observable requests of a run: page searches and the scroll release. -/
inductive EsAction where
  | search
  | release
  deriving DecidableEq, Repr

/-- The `for {}` body of `ForEachRawItem` (ds.go 756-894, sequential mode),
consuming one oracle response per iteration; returns how the loop exits,
the final `scroll` pointer, and the accumulated request trace (never
containing the release — that is the wrapper's deferred call).
On a 500 response the code panics: with no scroll open and the marker
present, the retry branch formats its log message with
`len(res.(map[string]interface{}))` while `res` holds the `[]byte` body
(ds.go 799); otherwise the `_scroll_id` extraction asserts the same
`[]byte` to a map (ds.go 805).  A zero-hits page breaks into the drain:
flush buffered documents if any, then return. -/
def forEachLoop (packSize : Nat) (ufunct : List Nat → Except String (List Nat))
    (uitems : List Nat → List Nat → Except String (List Nat)) :
    List EsResp → Option String → List Nat → List EsAction →
    LoopExit × Option String × List EsAction
  | [], scroll, _, tr => (.outOfResponses, scroll, tr)
  | resp :: rest, scroll, docs, tr =>
    match resp with
    | .badResp => (.fatal, scroll, tr ++ [EsAction.search])
    | .bytes500 _ => (.panicked, scroll, tr ++ [EsAction.search])
    | .ok200 sid hits =>
      match sid with
      | none => (.errored, scroll, tr ++ [EsAction.search])
      | some s =>
        match hits with
        | none => (.errored, some s, tr ++ [EsAction.search])
        | some items =>
          if items.length = 0 then
            if docs.length > 0 then
              match ufunct docs with
              | .error _ => (.errored, some s, tr ++ [EsAction.search])
              | .ok _ => (.finished, some s, tr ++ [EsAction.search])
            else (.finished, some s, tr ++ [EsAction.search])
          else
            match uitems items docs with
            | .error _ => (.errored, some s, tr ++ [EsAction.search])
            | .ok docs2 =>
              if docs2.length ≥ packSize then
                match ufunct docs2 with
                | .error _ => (.errored, some s, tr ++ [EsAction.search])
                | .ok docs3 =>
                  forEachLoop packSize ufunct uitems rest (some s) docs3
                    (tr ++ [EsAction.search])
              else
                forEachLoop packSize ufunct uitems rest (some s) docs2
                  (tr ++ [EsAction.search])

/-- `ForEachRawItem` with its deferred release: after the loop body exits,
the deferred function (ds.go 708-727) issues one scroll-delete request iff
`scroll != nil`. -/
def ForEachRawItemModel (packSize : Nat)
    (ufunct : List Nat → Except String (List Nat))
    (uitems : List Nat → List Nat → Except String (List Nat))
    (resps : List EsResp) : LoopExit × List EsAction :=
  match forEachLoop packSize ufunct uitems resps none [] [] with
  | (ex, scroll, tr) => (ex, tr ++ (if scroll.isSome then [EsAction.release] else []))

/-! ## The too-many-scrolls retry branch (ds.go 795-804) -/

/-- Is the `res` value a decoded JSON map at this status?  `Request` is
called with JSON statuses `{200}`, so only a 200 response is a map — a 500
response's `res` is the raw `[]byte` body. -/
def resIsJsonMapAt (status : Nat) : Bool := inRanges status [(200, 200)]

/-- How one pass through the too-many-scrolls branch ends. -/
inductive RetryStep where
  | panicked
  | fatalBudget
  | retried
  deriving DecidableEq, Repr

/-- The body of the retry branch, reached when `scroll == nil`, the status
is 500, and the body contains the marker: sleep, then format the retry log
message — whose first argument is `len(res.(map[string]interface{}))`, a
single-value type assertion that panics unless `res` is a map —, then
compare the elapsed time against the scroll-wait budget: over budget is
fatal, otherwise `continue` retries the scroll-opening search. -/
def scrollRetryStep (resIsMap : Bool) (elapsed budget : ℚ) : RetryStep :=
  if !resIsMap then .panicked
  else if elapsed > budget then .fatalBudget
  else .retried

/-! ## Identity/affiliation resolution
(`EmptyAffsItem`, `IdentityAffsDomain`, `AffsIdentityIDs`, `GetEnrollments*`,
`IdenityAffsData` in `mbox.go` 588-803; `AffsItems` in the Jira connector)

Documents are Go `map[string]interface{}` values: modelled as association
lists of dynamically-typed values, with map assignment replacing an
existing key or appending a new one.  The identity store (`FindObject`
over the `identities` and `profiles` tables) and the two process caches
are oracles.  Dates are day numbers (the enrollment cache key truncates
to day resolution). -/

/-- A dynamically-typed Go value. -/
inductive GoVal where
  | null
  | str (s : String)
  | int (n : Int)
  | bool (b : Bool)
  | list (xs : List GoVal)

/-- A Go `map[string]interface{}` document. -/
abbrev Doc := List (String × GoVal)

/-- Map read. -/
def getV (d : Doc) (k : String) : Option GoVal := (List.lookup k d : Option GoVal)

/-- Map assignment: replace the key if present, append otherwise. -/
def setV : Doc → String → GoVal → Doc
  | [], k, v => [(k, v)]
  | (k0, v0) :: rest, k, v =>
    if k0 = k then (k0, v) :: rest else (k0, v0) :: setV rest k v

/-- `EmptyAffsItem` (mbox.go 589-606): all ten affiliation fields of a
role, filled with `""` (or `"-- UNDEFINED --"` when `undef`), a nil
`gender_acc`, a `false` bot flag, and an empty multi-org list. -/
def EmptyAffsItem (role : String) (undef : Bool) : Doc :=
  let emp := if undef then "-- UNDEFINED --" else ""
  [(role ++ "_id", .str emp),
   (role ++ "_uuid", .str emp),
   (role ++ "_name", .str emp),
   (role ++ "_user_name", .str emp),
   (role ++ "_domain", .str emp),
   (role ++ "_gender", .str emp),
   (role ++ "_gender_acc", .null),
   (role ++ "_org_name", .str emp),
   (role ++ "_bot", .bool false),
   (role ++ "_multi_org_names", .list [])]

/-- A role identity as `GetRoleIdentity` produces it: the three fields,
each either a string or nil/missing (non-string dug values are conflated
with nil; the string type assertions in `AffsIdentityIDs` fail on both the
same way). -/
structure RoleIdentity where
  name : Option String
  username : Option String
  email : Option String

/-- `IdentityAffsDomain` (mbox.go 609-619): the part after the first `@`
of the identity's email, nil when there is none. -/
def IdentityAffsDomain (ident : RoleIdentity) : GoVal :=
  match ident.email with
  | some e =>
    let ary := e.splitOn "@"
    if ary.length > 1 then .str (ary.getD 1 "") else .null
  | none => .null

/-- One row of the `profiles` table as `FindObject` returns it
(mbox.go 768): nullable columns. -/
structure ProfileRow where
  name : Option String
  email : Option String
  gender : Option String
  genderAcc : Option Int
  isBot : Option Int

/-- The identity store: `FindObject` over `identities` (by computed id,
yielding the `id` and `uuid` column values) and `profiles` (by uuid).
`none` covers both "no row" and a query error — the code treats them
alike. -/
structure AffsDB where
  identities : String → Option (GoVal × GoVal)
  profiles : String → Option ProfileRow

/-- `ToYMDDate` at day resolution: dates are modelled as day numbers. -/
def ToYMDDate (dt : Int) : String := toString dt

/-- `AffsIdentityIDs` (mbox.go 664-699): nothing to look up when all three
fields are nil; otherwise consult the identity cache keyed by the raw
`email:name:username` (nil fields contribute their zero value `""` to the
key); on a miss substitute the `Nil` sentinel for missing fields, hash
with the tolerant identifier, and fetch the (id, uuid) pair from the
store — `(.null, .null)` when nothing is found. -/
def AffsIdentityIDs (db : AffsDB) (idCache : String → Option (GoVal × GoVal))
    (source : String) (ident : RoleIdentity) : Except String (GoVal × GoVal) :=
  if ident.email = none ∧ ident.name = none ∧ ident.username = none then
    .ok (.null, .null)
  else
    match idCache (ident.email.getD "" ++ ":" ++ ident.name.getD "" ++ ":" ++
        ident.username.getD "") with
    | some ids => .ok ids
    | none =>
      (UUIDAffsPure [source, ident.email.getD NilS, ident.name.getD NilS,
          ident.username.getD NilS]).map (fun id =>
        match db.identities id with
        | none => (.null, .null)
        | some ids => ids)

/-- `GetEnrollments` (mbox.go 703-717): the enrollment query is a stub —
return the cached organizations for `(uuid, single?, day)` if present,
otherwise the empty list (which the code then caches). -/
def GetEnrollments (rolls : String → Option (List String)) (uuid : String)
    (dt : Int) (single : Bool) : List String :=
  (rolls (uuid ++ (if single then "s" else "m") ++ ToYMDDate dt)).getD []

/-- `GetEnrollmentsSingle` (mbox.go 720-728). -/
def GetEnrollmentsSingle (rolls : String → Option (List String)) (uuid : String)
    (dt : Int) : String :=
  match GetEnrollments rolls uuid dt true with
  | [] => Unknown
  | o :: _ => o

/-- `GetEnrollmentsMulti` (mbox.go 733-739). -/
def GetEnrollmentsMulti (rolls : String → Option (List String)) (uuid : String)
    (dt : Int) : List String :=
  match GetEnrollments rolls uuid dt false with
  | [] => [Unknown]
  | orgs => orgs

/-- `IdenityAffsData` (mbox.go 742-803): resolve the identity ids, start
from the empty affiliation item, fill id/uuid/name/user_name/domain; a nil
uuid replaces the whole item with the `undef` variant and returns; with a
uuid, merge the profile row (name, email domain, gender — `Unknown` when
the profile's gender is nil), compute the 0/1 bot integer, default a
missing/nil gender to `Unknown` with `gender_acc = 0`, and fill the
single- and multi-organization fields from the enrollments. -/
def IdenityAffsData (db : AffsDB) (idCache : String → Option (GoVal × GoVal))
    (rolls : String → Option (List String)) (source : String)
    (ident : RoleIdentity) (dt : Int) (role : String) : Except String Doc :=
  (AffsIdentityIDs db idCache source ident).map (fun ids =>
    let outItem := EmptyAffsItem role false
    let outItem := setV outItem (role ++ "_id") ids.1
    let outItem := setV outItem (role ++ "_uuid") ids.2
    let outItem := setV outItem (role ++ "_name")
      (match ident.name with | none => .str "" | some n => .str n)
    let outItem := setV outItem (role ++ "_user_name")
      (match ident.username with | none => .str "" | some u => .str u)
    let outItem := setV outItem (role ++ "_domain") (IdentityAffsDomain ident)
    match ids.2 with
    | .null => EmptyAffsItem role true
    | uuidVal =>
      let suuid := match uuidVal with | .str s => s | _ => ""
      let pr := db.profiles suuid
      let outItem :=
        match pr with
        | none => outItem
        | some p =>
          let outItem := match p.name with
            | some n => setV outItem (role ++ "_name") (.str n)
            | none => outItem
          let outItem := match p.email with
            | some e =>
              let ary := e.splitOn "@"
              if ary.length > 1 then setV outItem (role ++ "_domain") (.str (ary.getD 1 ""))
              else outItem
            | none => outItem
          match p.gender with
          | some g => setV outItem (role ++ "_gender") (.str g)
          | none => setV outItem (role ++ "_gender") (.str Unknown)
      let isBot : Int :=
        match pr with
        | none => 0
        | some p => match p.isBot with
          | some b => if b > 0 then 1 else 0
          | none => 0
      let outItem :=
        match getV outItem (role ++ "_gender") with
        | none =>
          setV (setV outItem (role ++ "_gender") (.str Unknown)) (role ++ "_gender_acc") (.int 0)
        | some .null =>
          setV (setV outItem (role ++ "_gender") (.str Unknown)) (role ++ "_gender_acc") (.int 0)
        | some _ => outItem
      let outItem := setV outItem (role ++ "_bot") (.int isBot)
      let outItem := setV outItem (role ++ "_org_name")
        (.str (GetEnrollmentsSingle rolls suuid dt))
      setV outItem (role ++ "_multi_org_names")
        (.list ((GetEnrollmentsMulti rolls suuid dt).map GoVal.str)))

/-- Merge a produced affiliation item into the accumulated map
(`for prop, value := range affsIdentity { affsItems[prop] = value }`). -/
def mergeDoc (acc : Doc) (src : Doc) : Doc :=
  src.foldl (fun a kv => setV a kv.1 kv.2) acc

/-- `AffsItems` of the Jira connector (jira source, lines 1269-1301),
after the date has been parsed: for each role with a non-empty identity,
produce the affiliation item and merge it; the trailing patch that would
default missing `_org_name`/`_name`/`_user_name` keys to `Unknown`
mutates only the local map after it was merged, so it never reaches the
result — it is modelled, and discarded, as in the source. -/
def AffsItems (db : AffsDB) (idCache : String → Option (GoVal × GoVal))
    (rolls : String → Option (List String)) (source : String)
    (roleIdent : String → Option RoleIdentity) (dt : Int) :
    List String → Doc → Except String Doc
  | [], acc => .ok acc
  | role :: rest, acc =>
    match roleIdent role with
    | none => AffsItems db idCache rolls source roleIdent dt rest acc
    | some ident =>
      match IdenityAffsData db idCache rolls source ident dt role with
      | .error e => .error e
      | .ok affsIdentity =>
        let acc := mergeDoc acc affsIdentity
        let _patched := ["_org_name", "_name", "_user_name"].foldl
          (fun d suff => match getV d (role ++ suff) with
            | none => setV d (role ++ suff) (.str Unknown)
            | some _ => d) affsIdentity
        AffsItems db idCache rolls source roleIdent dt rest acc

/-- An identity store with no identities and no profiles. -/
def noMatchDB : AffsDB := { identities := fun _ => none, profiles := fun _ => none }

/-- The spec §8 scenario identity: name "Vasyl", username "vvavrychuk",
empty-string email. -/
def vasylIdentity : RoleIdentity :=
  { name := some "Vasyl", username := some "vvavrychuk", email := some "" }

/-- The scenario's role extraction: only the author role is present. -/
def vasylRoleIdent : String → Option RoleIdentity :=
  fun r => if r = "author" then some vasylIdentity else none

/-- The scenario's rich-document affiliation fields: the Jira `AffsItems`
over the author role, against an identity store with no match and empty
caches. -/
def vasylAffsDoc : Except String Doc :=
  AffsItems noMatchDB (fun _ => none) (fun _ => none) "jira" vasylRoleIdent 0 ["author"] []

/-! ## Theorems -/

theorem anyEmpty_iff_mem (args : List String) : anyEmpty args = true ↔ "" ∈ args := by
  induction args with
  | nil => simp [anyEmpty]
  | cons a rest ih =>
    simp [anyEmpty, ih, Bool.or_eq_true, beq_iff_eq]
    constructor
    · rintro (h | h)
      · exact Or.inl h.symm
      · exact Or.inr h
    · rintro (h | h)
      · exact Or.inl h.symm
      · exact Or.inr h

theorem string_append_ne_empty_left (a b : String) (h : a ≠ "") : a ++ b ≠ "" := by
  intro hab
  apply h
  have hd : (a ++ b).data = a.data ++ b.data := String.data_append a b
  have : a.data ++ b.data = ([] : List Char) := by
    rw [← hd, hab]
  rcases List.append_eq_nil.mp this with ⟨ha, _⟩
  cases a
  simp_all

theorem colonJoin_cons (a b : String) (l : List String) :
    colonJoin (a :: b :: l) = a ++ ":" ++ colonJoin (b :: l) := rfl

theorem foldl_joinStep_of_ne (xs : List String) :
    ∀ acc : String, acc ≠ "" → List.foldl joinStep acc xs = colonJoin (acc :: xs) := by
  induction xs with
  | nil => intro acc _; rfl
  | cons x rest ih =>
    intro acc hacc
    have hne : acc ++ ":" ++ x ≠ "" :=
      string_append_ne_empty_left _ _ (string_append_ne_empty_left _ _ hacc)
    calc List.foldl joinStep acc (x :: rest)
        = List.foldl joinStep (acc ++ ":" ++ x) rest := by
          simp [List.foldl, joinStep, hacc]
      _ = colonJoin ((acc ++ ":" ++ x) :: rest) := ih _ hne
      _ = colonJoin (acc :: x :: rest) := by
          cases rest with
          | nil => rfl
          | cons y l =>
            show (acc ++ ":" ++ x) ++ ":" ++ colonJoin (y :: l)
                = acc ++ ":" ++ (x ++ ":" ++ colonJoin (y :: l))
            apply String.ext
            simp [String.data_append]

theorem foldl_joinStep_empty (xs : List String) :
    List.foldl joinStep "" xs = colonJoin (xs.dropWhile (fun s => s = "")) := by
  induction xs with
  | nil => rfl
  | cons x rest ih =>
    by_cases hx : x = ""
    · subst hx
      simpa [List.foldl, joinStep] using ih
    · have : List.foldl joinStep "" (x :: rest) = List.foldl joinStep x rest := by
        simp [List.foldl, joinStep, hx]
      rw [this, foldl_joinStep_of_ne rest x hx]
      simp [List.dropWhile, hx]

/-- The strict loop, expressed as a single specification-shaped conditional. -/
theorem uuidNonEmptyLoop_eq (args : List String) :
    ∀ arg : String,
      uuidNonEmptyLoop args arg =
        if anyEmpty args then Except.error "UUIDNonEmpty - empty argument(s) not allowed"
        else Except.ok (List.foldl joinStep arg (args.map stripF)) := by
  induction args with
  | nil => intro arg; rfl
  | cons a rest ih =>
    intro arg
    by_cases ha : a = ""
    · simp [uuidNonEmptyLoop, anyEmpty, ha]
    · simp [uuidNonEmptyLoop, anyEmpty, ha, ih]

theorem toNat_ofNat_small (n : Nat) (h : n < 55296) : (Char.ofNat n).toNat = n := by
  unfold Char.ofNat
  rw [dif_pos (Or.inl h)]
  rfl

/-- Lower-casing does not change whether a code point survives `stripF`. -/
theorem keepRune_toLowerCh (c : Char) : keepRune (toLowerCh c) = keepRune c := by
  unfold toLowerCh
  by_cases h : (65 ≤ c.toNat && c.toNat ≤ 90) = true
  · rw [if_pos h]
    rw [Bool.and_eq_true, decide_eq_true_eq, decide_eq_true_eq] at h
    have ht : (Char.ofNat (c.toNat + 32)).toNat = c.toNat + 32 :=
      toNat_ofNat_small _ (by omega)
    have h1 : keepRune (Char.ofNat (c.toNat + 32)) = true := by
      simp only [keepRune, ht, Bool.and_eq_true, decide_eq_true_eq]
      omega
    have h2 : keepRune c = true := by
      simp only [keepRune, Bool.and_eq_true, decide_eq_true_eq]
      omega
    rw [h1, h2]
  · rw [if_neg h]

theorem strLower_stripF_comm (s s' : String) (h : strLower s = strLower s') :
    strLower (stripF s) = strLower (stripF s') := by
  have hd : s.data.map toLowerCh = s'.data.map toLowerCh := by
    have := congrArg String.data h
    simpa [strLower] using this
  apply String.ext
  show (s.data.filter keepRune).map toLowerCh = (s'.data.filter keepRune).map toLowerCh
  have key : ∀ l : List Char,
      (l.filter keepRune).map toLowerCh = (l.map toLowerCh).filter keepRune := by
    intro l
    induction l with
    | nil => rfl
    | cons c cs ih =>
      by_cases hk : keepRune c = true
      · simp [List.filter, hk, keepRune_toLowerCh, ih]
      · simp only [Bool.not_eq_true] at hk
        simp [List.filter, hk, keepRune_toLowerCh, ih]
  rw [key, key, hd]

theorem strLower_append (a b : String) : strLower (a ++ b) = strLower a ++ strLower b := by
  apply String.ext
  simp [strLower, String.data_append]

theorem strLower_eq_empty_iff (s : String) : strLower s = "" ↔ s = "" := by
  constructor
  · intro h
    have := congrArg String.data h
    simp only [strLower] at this
    have : s.data.map toLowerCh = [] := this
    have hnil : s.data = [] := List.map_eq_nil_iff.mp this
    cases s
    simp_all
  · intro h; rw [h]; rfl

theorem uuidAffsLoop_congr :
    ∀ (args args' : List String), List.Forall₂ caseAligned args args' →
    ∀ (i : Nat) (arg arg' : String), strLower arg = strLower arg' →
      (∃ e, uuidAffsLoop args i arg = Except.error e ∧
            uuidAffsLoop args' i arg' = Except.error e) ∨
      (∃ x x', uuidAffsLoop args i arg = Except.ok x ∧
               uuidAffsLoop args' i arg' = Except.ok x' ∧ strLower x = strLower x') := by
  intro args args' hall
  induction hall with
  | nil =>
    intro i arg arg' hlow
    exact Or.inr ⟨arg, arg', rfl, rfl, hlow⟩
  | @cons a a' rest rest' hab _ ih =>
    intro i arg arg' hlow
    obtain ⟨hablow, habnil⟩ := hab
    have hemp : (a = "") ↔ (a' = "") := by
      rw [← strLower_eq_empty_iff a, ← strLower_eq_empty_iff a', hablow]
    by_cases hi : (i = 0 && a = "") = true
    · have hi' : (i = 0 && a' = "") = true := by
        rw [Bool.and_eq_true, decide_eq_true_eq, decide_eq_true_eq] at hi ⊢
        exact ⟨hi.1, hemp.mp hi.2⟩
      refine Or.inl ⟨"UUIDAffs - empty first argument not allowed", ?_, ?_⟩
      · simp [uuidAffsLoop, hi]
      · simp [uuidAffsLoop, hi']
    · have hi' : ¬(i = 0 && a' = "") = true := by
        rw [Bool.and_eq_true, decide_eq_true_eq, decide_eq_true_eq] at hi ⊢
        intro hcon
        exact hi ⟨hcon.1, hemp.mpr hcon.2⟩
      have hstep : strLower (joinStep arg (stripF (if a = NilS then NoneS else a)))
          = strLower (joinStep arg' (stripF (if a' = NilS then NoneS else a'))) := by
        have hpiece : strLower (stripF (if a = NilS then NoneS else a))
            = strLower (stripF (if a' = NilS then NoneS else a')) := by
          by_cases hn : a = NilS
          · rw [if_pos hn, if_pos (habnil.mp hn)]
          · rw [if_neg hn, if_neg (fun hc => hn (habnil.mpr hc))]
            exact strLower_stripF_comm a a' hablow
        unfold joinStep
        by_cases he : arg = ""
        · rw [if_pos he, if_pos ((strLower_eq_empty_iff arg').mp (by rw [← hlow, he]; rfl))]
          exact hpiece
        · have he' : ¬arg' = "" := fun hc =>
            he ((strLower_eq_empty_iff arg).mp (by rw [hlow, hc]; rfl))
          rw [if_neg he, if_neg he', strLower_append, strLower_append,
              strLower_append, strLower_append, hlow, hpiece]
      have := ih (i + 1) _ _ hstep
      rcases this with ⟨e, h1, h2⟩ | ⟨x, x', h1, h2, h3⟩
      · exact Or.inl ⟨e, by simp [uuidAffsLoop, hi, h1], by simp [uuidAffsLoop, hi', h2]⟩
      · exact Or.inr ⟨x, x', by simp [uuidAffsLoop, hi, h1], by simp [uuidAffsLoop, hi', h2], h3⟩

/-- **C2 (amended).** For every call to the cached strict identifier whose
raw colon-joined key is not already cached: if at least one argument is the
empty string the call fails fatally; otherwise it returns the hex-encoded
SHA-1 of the normalized arguments joined with `:` (arguments that normalize
to the empty string contribute no separator while the accumulated prefix is
still empty), and caches it under the raw key. -/
theorem claim_strict_identifier_contract (c : UuidCache) (args : List String)
    (hc : cacheGet c (colonKey args) = none) :
    UUIDNonEmptyCached c args =
      if anyEmpty args then Except.error "UUIDNonEmpty - empty argument(s) not allowed"
      else Except.ok (strictSpecHash args, (colonKey args, strictSpecHash args) :: c) := by
  unfold UUIDNonEmptyCached
  rw [hc]
  unfold UUIDNonEmptyPure
  rw [uuidNonEmptyLoop_eq]
  by_cases he : anyEmpty args = true
  · rw [if_pos he, if_pos he]
    rfl
  · rw [if_neg he, if_neg he, foldl_joinStep_empty]
    rfl

/-- Witness for C2's theorem at a concrete cache and argument list. -/
theorem claim_strict_identifier_contract_witness :
    cacheGet [] (colonKey ["a", "b"]) = none ∧
    UUIDNonEmptyCached [] ["a", "b"] =
      (if anyEmpty ["a", "b"] then Except.error "UUIDNonEmpty - empty argument(s) not allowed"
       else Except.ok (strictSpecHash ["a", "b"],
             (colonKey ["a", "b"], strictSpecHash ["a", "b"]) :: [])) :=
  ⟨rfl, claim_strict_identifier_contract [] ["a", "b"] rfl⟩

/-- **C2 counterexample.** The claim as stated ("for every call with an
empty argument, the call fails fatally") is false: the cache is keyed by
the raw colon-join, so after `["x:", "y"]` is hashed, the call
`["x", "", "y"]` — which contains an empty argument — hits the cached key
`"x::y"` and returns the cached hash instead of failing. -/
theorem claim_strict_identifier_counterexample :
    anyEmpty ["x", "", "y"] = true ∧
    UUIDNonEmptyCached [] ["x:", "y"] =
      Except.ok (sha1hex "x::y", [("x::y", sha1hex "x::y")]) ∧
    UUIDNonEmptyCached [("x::y", sha1hex "x::y")] ["x", "", "y"] =
      Except.ok (sha1hex "x::y", [("x::y", sha1hex "x::y")]) :=
  ⟨rfl, rfl, rfl⟩

/-- **C9.** The identifier caches are keyed by the colon-join of the raw
arguments: the distinct tuples `["a:", "b"]` and `["a", "", "b"]` share the
key `"a::b"`, so after the first call is cached, the strict identifier
returns the first tuple's hash for the second tuple — although the second
tuple contains an empty argument, on which the uncached strict computation
would fail fatally. -/
theorem claim_cache_raw_key_collision :
    colonKey ["a:", "b"] = colonKey ["a", "", "b"] ∧
    UUIDNonEmptyCached [] ["a:", "b"] =
      Except.ok (sha1hex "a::b", [("a::b", sha1hex "a::b")]) ∧
    UUIDNonEmptyCached [("a::b", sha1hex "a::b")] ["a", "", "b"] =
      Except.ok (sha1hex "a::b", [("a::b", sha1hex "a::b")]) ∧
    UUIDNonEmptyPure ["a", "", "b"] =
      Except.error "UUIDNonEmpty - empty argument(s) not allowed" :=
  ⟨rfl, rfl, rfl, rfl⟩

/-- **C3 (amended).** The tolerant identifier is deterministic — a repeated
call with the identical tuple, resuming from the cache state the first call
returned, yields the identical hash — and case-invariant for tuples whose
arguments vary only in letter case, provided the case change does not turn
the null sentinel `"<nil>"` into a non-sentinel spelling or vice versa. -/
theorem claim_tolerant_identifier_props :
    (∀ (c : UuidCache) (args : List String) (h : String) (c' : UuidCache),
        UUIDAffsCached c args = Except.ok (h, c') →
        UUIDAffsCached c' args = Except.ok (h, c')) ∧
    (∀ args args' : List String, List.Forall₂ caseAligned args args' →
        UUIDAffsPure args = UUIDAffsPure args') := by
  constructor
  · intro c args h c' hcall
    unfold UUIDAffsCached at hcall ⊢
    cases hcg : cacheGet c (colonKey args) with
    | some h0 =>
      rw [hcg] at hcall
      obtain ⟨h1, h2⟩ := Prod.mk.injEq .. ▸ (Except.ok.injEq .. ▸ hcall)
      subst h1 h2
      rw [hcg]
    | none =>
      rw [hcg] at hcall
      cases hp : UUIDAffsPure args with
      | error e => rw [hp] at hcall; simp [Except.map] at hcall
      | ok x =>
        rw [hp] at hcall
        simp only [Except.map, Except.ok.injEq, Prod.mk.injEq] at hcall
        obtain ⟨h1, h2⟩ := hcall
        subst h1
        rw [← h2]
        have : cacheGet ((colonKey args, x) :: c) (colonKey args) = some x := by
          simp [cacheGet, List.lookup]
        rw [this]
  · intro args args' hall
    unfold UUIDAffsPure
    rcases uuidAffsLoop_congr args args' hall 0 "" "" rfl with
      ⟨e, h1, h2⟩ | ⟨x, x', h1, h2, h3⟩
    · rw [h1, h2]
    · rw [h1, h2]
      simp [Except.map, h3]

/-- Witness for C3's theorem: a concrete repeated call and a concrete
case-variant pair. -/
theorem claim_tolerant_identifier_props_witness :
    UUIDAffsCached [("x:y", sha1hex (strLower "x:y"))] ["x", "y"] =
      Except.ok (sha1hex (strLower "x:y"), [("x:y", sha1hex (strLower "x:y"))]) ∧
    UUIDAffsPure ["A"] = UUIDAffsPure ["a"] :=
  ⟨claim_tolerant_identifier_props.1 [] ["x", "y"] _ _ rfl,
   claim_tolerant_identifier_props.2 ["A"] ["a"]
     (List.Forall₂.cons ⟨by decide, by decide⟩ List.Forall₂.nil)⟩

/-- **C3 counterexample.** Case-invariance fails as originally stated: the
tuple `["x", "<NIL>"]` is a case-only variation of `["x", "<nil>"]`, but
only the exact sentinel `"<nil>"` is replaced by `"None"` before hashing,
so the two calls hash different strings and return different hashes. -/
theorem claim_tolerant_identifier_counterexample :
    strLower NilS = strLower "<NIL>" ∧
    UUIDAffsCached [] ["x", NilS] =
      Except.ok (sha1hex (strLower "x:None"), [("x:<nil>", sha1hex (strLower "x:None"))]) ∧
    UUIDAffsCached [] ["x", "<NIL>"] =
      Except.ok (sha1hex (strLower "x:<NIL>"), [("x:<NIL>", sha1hex (strLower "x:<NIL>"))]) ∧
    sha1hex (strLower "x:None") ≠ sha1hex (strLower "x:<NIL>") :=
  ⟨by decide, rfl, rfl, by decide⟩

/-- **C1.** Composing the raw pass's checkpoint resolution with the
enrichment pass's: when the raw start was auto-detected, the enrichment
start never exceeds the raw start — a later rich-index date/offset is
clamped to the raw value — and when the operator supplied the start
explicitly, the enrichment pass uses that value unchanged. -/
theorem claim_enrich_checkpoint_clamp :
    (∀ (rawLast richLast : Option Int) (d1 : Int),
        fetchRawResolveDate none rawLast = (some d1, true) →
        (∀ d2, richLast = some d2 → d1 < d2 →
            enrichResolveDate true (some d1) richLast = some (some d1)) ∧
        (∀ eff, enrichResolveDate true (some d1) richLast = some eff →
            ∀ v, eff = some v → v ≤ d1)) ∧
    (∀ (opDate richLast : Option Int),
        enrichResolveDate false opDate richLast = some opDate) ∧
    (∀ (opOffset rawLast richLast o1 : ℚ),
        fetchRawResolveOffset opOffset rawLast = (o1, true) →
        (richLast > o1 → enrichResolveOffset true o1 richLast = o1) ∧
        enrichResolveOffset true o1 richLast ≤ o1) ∧
    (∀ (opOffset richLast : ℚ), opOffset ≥ 0 →
        enrichResolveOffset false opOffset richLast = opOffset) := by
  refine ⟨?_, ?_, ?_, ?_⟩
  · intro rawLast richLast d1 hraw
    constructor
    · intro d2 hr hd
      subst hr
      simp [enrichResolveDate, hd]
    · intro eff heff v hv
      subst hv
      cases richLast with
      | none =>
        simp [enrichResolveDate] at heff
      | some d2 =>
        simp [enrichResolveDate] at heff
        by_cases hlt : d1 < d2
        · rw [if_pos hlt] at heff
          omega
        · rw [if_neg hlt] at heff
          omega
  · intro opDate richLast
    simp [enrichResolveDate]
  · intro opOffset rawLast richLast o1 hraw
    have ho1 : o1 ≥ 0 := by
      unfold fetchRawResolveOffset at hraw
      by_cases h1 : opOffset ≥ 0
      · rw [if_pos h1] at hraw
        obtain ⟨_, h4⟩ := Prod.mk.injEq .. ▸ hraw
        exact absurd h4.symm (by simp)
      · rw [if_neg h1] at hraw
        by_cases h2 : rawLast ≥ 0
        · rw [if_pos h2] at hraw
          obtain ⟨h3, _⟩ := Prod.mk.injEq .. ▸ hraw
          rw [← h3]; exact h2
        · rw [if_neg h2] at hraw
          obtain ⟨_, h4⟩ := Prod.mk.injEq .. ▸ hraw
          exact absurd h4.symm (by simp)
    constructor
    · intro hgt
      have hge : richLast ≥ 0 := le_trans ho1 (le_of_lt hgt)
      simp [enrichResolveOffset, hge, hgt]
    · unfold enrichResolveOffset
      rw [if_pos rfl]
      by_cases hge : richLast ≥ 0
      · rw [if_pos hge]
        by_cases hgt : richLast > o1
        · rw [if_pos hgt]
        · rw [if_neg hgt]
          exact le_of_not_lt hgt
      · rw [if_neg hge]
        linarith
  · intro opOffset richLast hop
    simp [enrichResolveOffset, hop]

/-- Witness for C1 at concrete values: raw auto-detected date 10, rich
re-detected date 20 clamps to 10; operator-supplied date 7 passes through;
raw auto-detected offset 3, rich offset 5 clamps to 3; operator offset 4
passes through. -/
theorem claim_enrich_checkpoint_clamp_witness :
    enrichResolveDate true (some 10) (some 20) = some (some 10) ∧
    enrichResolveDate false (some 7) (some 20) = some (some 7) ∧
    enrichResolveOffset true 3 5 = 3 ∧
    enrichResolveOffset false 4 9 = 4 :=
  ⟨(claim_enrich_checkpoint_clamp.1 (some 10) (some 20) 10 rfl).1 20 rfl (by norm_num),
   claim_enrich_checkpoint_clamp.2.1 (some 7) (some 20),
   (claim_enrich_checkpoint_clamp.2.2.1 (-1) 3 5 3 (by norm_num [fetchRawResolveOffset])).1 (by norm_num),
   claim_enrich_checkpoint_clamp.2.2.2 4 9 (by norm_num)⟩

/-- **C5.** `Request` parses the body as structured JSON iff the status is
inside a `jsonStatuses` range (otherwise the raw body bytes are the
result); the error is non-nil whenever the status is inside an
`errorStatuses` range, and whenever `okStatuses` is non-empty and the
status is outside every `okStatuses` range; and when the status is in a
JSON range, in no error range, and the OK check passes, the error is nil
unless JSON decoding fails (which errors). -/
theorem claim_request_status_ranges (status : Nat) (decodeOk : Bool)
    (jsonS errS okS : List (Nat × Nat)) :
    ((requestModel status decodeOk jsonS errS okS).1 ≠ ReqResult.rawBody ↔
        inRanges status jsonS = true) ∧
    (inRanges status errS = true →
        (requestModel status decodeOk jsonS errS okS).2 = true) ∧
    (okS ≠ [] → inRanges status okS = false →
        (requestModel status decodeOk jsonS errS okS).2 = true) ∧
    (inRanges status jsonS = true → inRanges status errS = false →
        (okS = [] ∨ inRanges status okS = true) →
        ((requestModel status decodeOk jsonS errS okS).2 = false ↔ decodeOk = true)) := by
  refine ⟨?_, ?_, ?_, ?_⟩
  · unfold requestModel
    by_cases hj : inRanges status jsonS = true
    · rw [if_pos hj]
      by_cases hd : decodeOk
      · simp [hd, hj]
      · simp [hd, hj]
    · rw [if_neg hj]
      simp only [Bool.not_eq_true] at hj
      simp [hj]
  · intro herr
    unfold requestModel
    by_cases hj : inRanges status jsonS = true
    · rw [if_pos hj]
      by_cases hd : decodeOk
      · simp [hd, herr]
      · simp [hd]
    · rw [if_neg hj]
      simp [herr]
  · intro hne hok
    have hemp : okS.isEmpty = false := by
      cases okS with
      | nil => exact absurd rfl hne
      | cons a l => rfl
    unfold requestModel
    by_cases hj : inRanges status jsonS = true
    · rw [if_pos hj]
      by_cases hd : decodeOk
      · simp [hd, hok, hemp]
      · simp [hd]
    · rw [if_neg hj]
      simp [hok, hemp]
  · intro hj herr hokcase
    unfold requestModel
    rw [if_pos hj]
    by_cases hd : decodeOk
    · have hoks : (!okS.isEmpty && !inRanges status okS) = false := by
        rcases hokcase with hnil | hin
        · subst hnil; rfl
        · simp [hin]
      simp [hd, herr, hoks]
    · simp [hd]

/-- Witness for C5 at concrete call shapes: a 404 inside the bulk writer's
error range errors; a 300 outside a non-empty OK range errors; a decoded
200 inside the JSON and OK ranges is error-free. -/
theorem claim_request_status_ranges_witness :
    (requestModel 404 true [] [(400, 599)] []).2 = true ∧
    (requestModel 300 true [] [] [(200, 201)]).2 = true ∧
    ((requestModel 200 true [(200, 200)] [] [(200, 200)]).2 = false ↔ true = true) :=
  ⟨(claim_request_status_ranges 404 true [] [(400, 599)] []).2.1 (by decide),
   (claim_request_status_ranges 300 true [] [] [(200, 201)]).2.2.1 (by decide) (by decide),
   (claim_request_status_ranges 200 true [(200, 200)] [] [(200, 200)]).2.2.2
     (by decide) (by decide) (Or.inr (by decide))⟩

theorem buildBulkUUIDs_map (items : List (Option String)) (us : List String)
    (h : buildBulkUUIDs items = .ok us) :
    items.map (fun it => it.getD "") = us := by
  induction items generalizing us with
  | nil =>
    simp [buildBulkUUIDs] at h
    simp [← h]
  | cons it rest ih =>
    cases it with
    | none => simp [buildBulkUUIDs] at h
    | some u =>
      simp only [buildBulkUUIDs] at h
      cases hr : buildBulkUUIDs rest with
      | error e => rw [hr] at h; simp [Except.map] at h
      | ok us' =>
        rw [hr] at h
        simp only [Except.map, Except.ok.injEq] at h
        rw [List.map_cons, ih us' hr, ← h]
        rfl

theorem fallbackRun_spec (put : Nat → Nat) :
    ∀ (items : List (Option String)) (i : Nat) (e : Option Nat),
      fallbackRun put e i items =
        (items.map (fun it => it.getD ""),
         if items.length = 0 then e
         else if docPutErr (put (i + items.length - 1)) then some (put (i + items.length - 1))
         else none) := by
  intro items
  induction items with
  | nil => intro i e; rfl
  | cons it rest ih =>
    intro i e
    simp only [fallbackRun]
    rw [ih (i + 1)]
    cases rest with
    | nil => simp
    | cons it2 rest2 =>
      have h1 : i + 1 + (rest2.length + 1) - 1 = i + (rest2.length + 1 + 1) - 1 := by omega
      simp [h1]

/-- **C4.** When the bulk request fails on a batch whose every item carries
the id field, the fallback attempts every document of the batch exactly
once, as one PUT each, in batch order — whatever statuses the individual
upserts return, so one document's failure never prevents the remaining
attempts — and an individual upsert is error-free iff its status is 200 or
201. -/
theorem claim_bulk_fallback_attempts_all (put : Nat → Nat)
    (items : List (Option String)) (us : List String)
    (h : buildBulkUUIDs items = .ok us) :
    (∃ fin, SendToElasticModel true put items = .fallback us fin) ∧
    (∀ s, docPutErr s = false ↔ (200 ≤ s ∧ s ≤ 201)) := by
  constructor
  · refine ⟨(fallbackRun put none 0 items).2, ?_⟩
    unfold SendToElasticModel
    rw [h]
    simp only [if_pos rfl]
    rw [fallbackRun_spec]
    simp [buildBulkUUIDs_map items us h]
  · intro s
    have h1 : inRanges s [(400, 599)] = (decide (400 ≤ s) && decide (s ≤ 599)) := by
      simp [inRanges]
    have h2 : inRanges s [(200, 201)] = (decide (200 ≤ s) && decide (s ≤ 201)) := by
      simp [inRanges]
    have hmodel : docPutErr s = (inRanges s [(400, 599)] || !inRanges s [(200, 201)]) := rfl
    rw [hmodel, h1, h2]
    constructor
    · intro hf
      rw [Bool.or_eq_false_iff] at hf
      have hb := hf.2
      rw [Bool.not_eq_false', Bool.and_eq_true, decide_eq_true_eq, decide_eq_true_eq] at hb
      exact hb
    · intro hs
      have hb : (decide (200 ≤ s) && decide (s ≤ 201)) = true := by
        rw [Bool.and_eq_true]
        exact ⟨decide_eq_true hs.1, decide_eq_true hs.2⟩
      have ha : (decide (400 ≤ s) && decide (s ≤ 599)) = false := by
        have hd : decide (400 ≤ s) = false := decide_eq_false (by omega)
        rw [hd, Bool.false_and]
      rw [ha, hb]
      rfl

/-- Witness for C4: a two-document batch where the first upsert fails with
500 and the second succeeds with 200 — both documents are attempted. -/
theorem claim_bulk_fallback_attempts_all_witness :
    (∃ fin, SendToElasticModel true (fun i => if i = 0 then 500 else 200)
        [some "u", some "v"] = .fallback ["u", "v"] fin) ∧
    (∀ s, docPutErr s = false ↔ (200 ≤ s ∧ s ≤ 201)) :=
  claim_bulk_fallback_attempts_all (fun i => if i = 0 then 500 else 200)
    [some "u", some "v"] ["u", "v"] rfl

/-- **C10.** In fallback mode the returned error reflects only the final
document's request: for a batch of `n + 1` documents (all carrying the id
field) whose bulk write failed, the result is the full attempt trace
together with the outcome of request `n` alone — `nil` whenever the last
upsert succeeds, regardless of earlier failures, which are not aggregated. -/
theorem claim_bulk_fallback_last_error_wins (put : Nat → Nat)
    (items : List (Option String)) (us : List String) (n : Nat)
    (h : buildBulkUUIDs items = .ok us) (hlen : items.length = n + 1) :
    SendToElasticModel true put items =
      .fallback us (if docPutErr (put n) then some (put n) else none) := by
  unfold SendToElasticModel
  rw [h]
  simp only [if_pos rfl]
  rw [fallbackRun_spec]
  rw [buildBulkUUIDs_map items us h, hlen]
  simp

/-- Witness for C10: first upsert fails with 500, last succeeds with 200,
and the batch still reports no error. -/
theorem claim_bulk_fallback_last_error_wins_witness :
    SendToElasticModel true (fun i => if i = 0 then 500 else 200)
        [some "u", some "v"] = .fallback ["u", "v"] none := by
  have := claim_bulk_fallback_last_error_wins (fun i => if i = 0 then 500 else 200)
    [some "u", some "v"] ["u", "v"] 1 rfl rfl
  simpa using this

theorem forEachLoop_no_release (packSize : Nat)
    (ufunct : List Nat → Except String (List Nat))
    (uitems : List Nat → List Nat → Except String (List Nat)) :
    ∀ (resps : List EsResp) (scroll : Option String) (docs : List Nat)
      (tr : List EsAction),
      (forEachLoop packSize ufunct uitems resps scroll docs tr).2.2.count
          EsAction.release = tr.count EsAction.release := by
  intro resps
  induction resps with
  | nil => intro scroll docs tr; rfl
  | cons resp rest ih =>
    intro scroll docs tr
    have hsr : (tr ++ [EsAction.search]).count EsAction.release =
        tr.count EsAction.release := by
      rw [List.count_append]
      rfl
    cases resp with
    | badResp => simp [forEachLoop, hsr]
    | bytes500 m => simp [forEachLoop, hsr]
    | ok200 sid hits =>
      cases sid with
      | none => simp [forEachLoop, hsr]
      | some s =>
        cases hits with
        | none => simp [forEachLoop, hsr]
        | some items =>
          by_cases hz : items.length = 0
          · by_cases hd : docs.length > 0
            · cases hf : ufunct docs with
              | error e => simp [forEachLoop, hz, hd, hf, hsr]
              | ok d2 => simp [forEachLoop, hz, hd, hf, hsr]
            · simp [forEachLoop, hz, hd, hsr]
          · cases hu : uitems items docs with
            | error e => simp [forEachLoop, hz, hu, hsr]
            | ok docs2 =>
              by_cases hp : docs2.length ≥ packSize
              · cases hf : ufunct docs2 with
                | error e => simp [forEachLoop, hz, hu, hp, hf, hsr]
                | ok docs3 => simp [forEachLoop, hz, hu, hp, hf, ih, hsr]
              · simp [forEachLoop, hz, hu, hp, ih, hsr]

/-- **C8.** On every exit of the pagination loop, the scroll cursor is
released exactly once when one was opened (and never otherwise): the loop
body issues no release, the deferred call issues exactly one iff `scroll`
is set — covering the normal zero-hits termination and every error exit
alike; and, concretely, a run whose first page carries a scroll id and
zero hits terminates with exactly the search and one release, with no
documents ever buffered. -/
theorem claim_scroll_release_exactly_once :
    (∀ (packSize : Nat) (ufunct : List Nat → Except String (List Nat))
       (uitems : List Nat → List Nat → Except String (List Nat))
       (resps : List EsResp),
       (ForEachRawItemModel packSize ufunct uitems resps).2.count EsAction.release =
         (if (forEachLoop packSize ufunct uitems resps none [] []).2.1.isSome
          then 1 else 0) ∧
       (forEachLoop packSize ufunct uitems resps none [] []).2.2.count
           EsAction.release = 0) ∧
    ForEachRawItemModel 10 (fun d => Except.ok d) (fun its docs => Except.ok (docs ++ its))
        [EsResp.ok200 (some "s1") (some [])] =
      (LoopExit.finished, [EsAction.search, EsAction.release]) := by
  constructor
  · intro packSize ufunct uitems resps
    have h0 := forEachLoop_no_release packSize ufunct uitems resps none [] []
    constructor
    · unfold ForEachRawItemModel
      cases hrun : forEachLoop packSize ufunct uitems resps none [] [] with
      | mk ex rest =>
        cases rest with
        | mk scroll tr =>
          rw [hrun] at h0
          simp only at h0
          cases scroll with
          | none => simp [List.count_append, h0]
          | some s => simp [List.count_append, h0, List.count_singleton]
    · exact h0
  · rfl

/-- **C6.** The claim describes sleep-and-retry bounded by the elapsed-time
budget; the code instead panics on the branch's first execution: the
response that triggers the branch has status 500, so `res` holds raw bytes
(`resIsJsonMapAt 500 = false`), and the log-formatting type assertion
`res.(map[string]interface{})` fails — for every elapsed time and budget,
even far under budget, the step panics and never retries. -/
theorem claim_scroll_retry_branch_panics :
    resIsJsonMapAt 500 = false ∧
    (∀ elapsed budget : ℚ,
        scrollRetryStep (resIsJsonMapAt 500) elapsed budget = RetryStep.panicked) ∧
    (∀ elapsed budget : ℚ,
        scrollRetryStep (resIsJsonMapAt 500) elapsed budget ≠ RetryStep.retried) := by
  refine ⟨rfl, ?_, ?_⟩
  · intro elapsed budget
    rfl
  · intro elapsed budget
    intro h
    exact absurd h (by rw [show scrollRetryStep (resIsJsonMapAt 500) elapsed budget =
      RetryStep.panicked from rfl]; intro hc; cases hc)

theorem uuidAffsLoop_ok_of_pos :
    ∀ (args : List String) (i : Nat) (arg : String), i ≠ 0 →
      ∃ x, uuidAffsLoop args i arg = Except.ok x := by
  intro args
  induction args with
  | nil => intro i arg _; exact ⟨arg, rfl⟩
  | cons a rest ih =>
    intro i arg hi
    have hcond : ¬((i = 0 && a = "") = true) := by
      rw [Bool.and_eq_true]
      rintro ⟨h1, _⟩
      exact hi (by simpa using h1)
    simp only [uuidAffsLoop]
    rw [if_neg hcond]
    exact ih (i + 1) _ (Nat.succ_ne_zero i)

theorem uuidAffsPure_ok_of_first_ne (source : String) (rest : List String)
    (h : source ≠ "") : ∃ x, UUIDAffsPure (source :: rest) = Except.ok x := by
  obtain ⟨x, hx⟩ :=
    uuidAffsLoop_ok_of_pos rest 1
      (joinStep "" (stripF (if source = NilS then NoneS else source))) one_ne_zero
  refine ⟨sha1hex (strLower x), ?_⟩
  unfold UUIDAffsPure
  simp only [uuidAffsLoop]
  rw [if_neg (by simp [h]), hx]
  rfl

/-- **C7 (amended).** For every role whose identity lookup finds no match
in the identity store (empty identity cache, no identities row for any
computed id), the produced affiliation item is exactly
`EmptyAffsItem(role, undef=true)`: every one of the ten affiliation fields
is a present key, with the sentinel `"-- UNDEFINED --"` in
`<role>_org_name` and `<role>_gender` (not `"Unknown"`), `<role>_bot =
false`, and `<role>_multi_org_names = []` (not `["Unknown"]`); the spec §8
scenario identity (name "Vasyl", username "vvavrychuk", email "") through
the Jira `AffsItems` exhibits exactly these values. -/
theorem claim_affs_no_match_sentinels :
    (∀ (db : AffsDB) (idCache : String → Option (GoVal × GoVal))
       (rolls : String → Option (List String)) (source : String)
       (ident : RoleIdentity) (dt : Int) (role : String),
       source ≠ "" →
       (∀ id, db.identities id = none) →
       (∀ k, idCache k = none) →
       IdenityAffsData db idCache rolls source ident dt role =
         Except.ok (EmptyAffsItem role true)) ∧
    (vasylAffsDoc = Except.ok (EmptyAffsItem "author" true) ∧
     vasylAffsDoc.map (fun d => getV d "author_org_name") =
       Except.ok (some (GoVal.str "-- UNDEFINED --")) ∧
     vasylAffsDoc.map (fun d => getV d "author_multi_org_names") =
       Except.ok (some (GoVal.list [])) ∧
     vasylAffsDoc.map (fun d => getV d "author_gender") =
       Except.ok (some (GoVal.str "-- UNDEFINED --")) ∧
     vasylAffsDoc.map (fun d => getV d "author_bot") =
       Except.ok (some (GoVal.bool false)) ∧
     vasylAffsDoc.map (fun d => List.map Prod.fst d) =
       Except.ok ["author_id", "author_uuid", "author_name", "author_user_name",
         "author_domain", "author_gender", "author_gender_acc", "author_org_name",
         "author_bot", "author_multi_org_names"]) := by
  constructor
  · intro db idCache rolls source ident dt role hsrc hdb hcache
    unfold IdenityAffsData
    have hids : AffsIdentityIDs db idCache source ident =
        Except.ok (GoVal.null, GoVal.null) := by
      unfold AffsIdentityIDs
      by_cases hall : ident.email = none ∧ ident.name = none ∧ ident.username = none
      · rw [if_pos hall]
      · rw [if_neg hall, hcache _]
        obtain ⟨x, hx⟩ := uuidAffsPure_ok_of_first_ne source _ hsrc
        rw [hx]
        simp only [Except.map]
        rw [hdb x]
    rw [hids]
    rfl
  · have h1 : vasylAffsDoc = Except.ok (EmptyAffsItem "author" true) := rfl
    refine ⟨h1, ?_, ?_, ?_, ?_, ?_⟩ <;> rw [h1] <;> rfl

/-- Witness for C7's theorem: the no-match store, empty caches, the
scenario identity and the author role. -/
theorem claim_affs_no_match_sentinels_witness :
    IdenityAffsData noMatchDB (fun _ => none) (fun _ => none) "jira"
        vasylIdentity 0 "author" = Except.ok (EmptyAffsItem "author" true) :=
  claim_affs_no_match_sentinels.1 noMatchDB (fun _ => none) (fun _ => none)
    "jira" vasylIdentity 0 "author" (by decide) (fun _ => rfl) (fun _ => rfl)

/-- **C7 counterexample.** At the claim's own scenario input — identity
(name "Vasyl", username "vvavrychuk", email "") with no store match — the
produced role fields are not the claimed sentinels: `author_org_name` is
`"-- UNDEFINED --"`, not `"Unknown"`, and `author_multi_org_names` is the
empty list, not `["Unknown"]`. -/
theorem claim_affs_unknown_sentinel_counterexample :
    vasylAffsDoc.map (fun d => getV d "author_org_name") =
      Except.ok (some (GoVal.str "-- UNDEFINED --")) ∧
    (Except.ok (some (GoVal.str "-- UNDEFINED --")) : Except String (Option GoVal)) ≠
      Except.ok (some (GoVal.str Unknown)) ∧
    vasylAffsDoc.map (fun d => getV d "author_multi_org_names") =
      Except.ok (some (GoVal.list [])) ∧
    (Except.ok (some (GoVal.list [])) : Except String (Option GoVal)) ≠
      Except.ok (some (GoVal.list [GoVal.str Unknown])) := by
  have h1 : vasylAffsDoc = Except.ok (EmptyAffsItem "author" true) := rfl
  refine ⟨by rw [h1]; rfl, by simp [Unknown], by rw [h1]; rfl, by simp⟩
